import Mathlib

/-!
Shallow embedding of the acme-configuration-manager-api core
(optimistic-concurrency versioning, override merge engine, conflict diff,
cache fallback, request validation), translated from the TypeScript source:
  src/utils/parameterUtils.ts
  src/utils/configHelpers.ts
  src/controllers/configController.ts
  src/controllers/clientConfigController.ts
  src/services/cacheService.ts
  src/middleware/validation.ts
-/

/-- The polymorphic parameter value union
(`type ParameterValue = string | number | boolean | object | null`,
src/utils/parameterUtils.ts line 10).  JS numbers are modelled as integers;
only their kind and equality matter to the claims.  A structured object is a
JS object literal, modelled as an association list of fields. -/
inductive Value where
  | vstr : String → Value
  | vnum : Int → Value
  | vbool : Bool → Value
  | vobj : List (String × Value) → Value
  | vnull : Value

/-- JS truthiness of a `ParameterValue` (`if (!x)` tests).  `{}` and every
object are truthy; `""`, `0`, `false` and `null` are falsy. -/
def jsTruthy : Value → Bool
  | .vstr s => s ≠ ""
  | .vnum n => n ≠ 0
  | .vbool b => b
  | .vobj _ => true
  | .vnull => false

/-- JS strict equality `===` between a value taken from the request payload
and a value taken from the stored document (the two operands of every
comparison in `detectConflictingFields`).  Primitives compare by value.  The
payload is freshly parsed JSON and the stored document is a fresh Firestore
snapshot, so two object operands are always distinct heap references and
`===` on them is `false` even when they are structurally equal. -/
def jsStrictEqCross : Value → Value → Bool
  | .vstr a, .vstr b => a == b
  | .vnum a, .vnum b => a == b
  | .vbool a, .vbool b => a == b
  | .vnull, .vnull => true
  | _, _ => false

/-- A JS `Record<string, ParameterValue>` (the `overrides.country` map),
modelled as an association list in insertion order with unique keys. -/
abbrev CountryMap := List (String × Value)

/-- Lookup `m[k]`: the value stored under key `k`, if any. -/
def cmLookup (m : CountryMap) (k : String) : Option Value :=
  (m.find? (fun p => p.1 == k)).map (fun p => p.2)

/-- Assignment `m[k] = v`: JS property assignment — overwrites in place when the key
exists, otherwise appends. -/
def cmInsert (m : CountryMap) (k : String) (v : Value) : CountryMap :=
  if (m.find? (fun p => p.1 == k)).isSome then
    m.map (fun p => if p.1 == k then (k, v) else p)
  else
    m ++ [(k, v)]

/-- Destructuring removal, dropping the entry of `m` stored under `k` and
keeping the rest. -/
def cmRemove (m : CountryMap) (k : String) : CountryMap :=
  m.filter (fun p => p.1 != k)

/-- The keys of the map, `Object.keys(m)`. -/
def cmKeys (m : CountryMap) : List String := m.map (fun p => p.1)

/-- JS object spread `{ ...a, ...b }`: the entries of `a` in order, each
overwritten by `b`'s value when `b` also has the key, followed by the entries
of `b` whose keys are absent from `a`. -/
def cmMergeRight (a b : CountryMap) : CountryMap :=
  a.map (fun p =>
    match cmLookup b p.1 with
    | some v => (p.1, v)
    | none => p) ++
  b.filter (fun q => (cmLookup a q.1).isNone)

/-- Model of `interface ParameterOverrides` with its optional `country` record
(src/utils/parameterUtils.ts lines 5–8). -/
structure Overrides where
  country : Option CountryMap

/-- The empty overrides object `{}`. -/
def emptyOverrides : Overrides := { country := none }

/-- A stored parameter document (`interface ParameterData`,
src/utils/parameterUtils.ts lines 12–23).  Optional fields are `Option`;
timestamps are opaque ticks. -/
structure StoredParam where
  key : String
  value : Value
  description : Option String
  overrides : Option Overrides
  isActive : Option Bool
  version : Option Nat
  createdAt : Option Nat
  updatedAt : Option Nat
  lastUpdatedBy : Option String

/-- A validated create/full-update request body (`interface ParameterBody`,
src/utils/parameterUtils.ts lines 25–33, minus the `lastKnownVersion` and
`forceUpdate` control fields which the controller destructures away).  `key`
and `value` are required by both Joi schemas; the rest are optional. -/
structure ParameterBody where
  key : String
  value : Value
  description : Option String
  isActive : Option Bool
  overrides : Option Overrides

/-- A `Partial<ParameterBody>` as consumed by `detectConflictingFields`:
every field may be absent. -/
structure UpdateFields where
  key : Option String
  value : Option Value
  description : Option String
  isActive : Option Bool
  overrides : Option Overrides

/-- View a full body as the partial payload handed to
`detectConflictingFields` (in `updateParameter` the same `updateData` object
is both). -/
def toUpdateFields (b : ParameterBody) : UpdateFields :=
  { key := some b.key
    value := some b.value
    description := b.description
    isActive := b.isActive
    overrides := b.overrides }

/-- JS `String.prototype.toUpperCase()` on the ASCII range (country codes
and locales in this API are ASCII): each lowercase letter is mapped to its
uppercase counterpart. -/
def jsToUpper (s : String) : String :=
  ⟨s.data.map (fun ch => if 'a' ≤ ch ∧ ch ≤ 'z' then Char.ofNat (ch.toNat - 32) else ch)⟩

/-- Function `incrementVersion` (src/utils/parameterUtils.ts lines 75–77). -/
def incrementVersion (currentVersion : Nat) : Nat := currentVersion + 1

/-- Optional chain `d.overrides?.country?.[jsToUpper code]`: the override
value the stored document holds for the (uppercased) country/locale code,
if any — `undefined` when the chain breaks or the key is absent. -/
def storedCountryEntry (d : StoredParam) (countryCode : String) : Option Value :=
  match d.overrides with
  | none => none
  | some o =>
    match o.country with
    | none => none
    | some m => cmLookup m (jsToUpper countryCode)

/-- Truthiness of an optional value: `undefined` is falsy, a present value
is as truthy as `jsTruthy` says. -/
def jsTruthyOpt : Option Value → Bool
  | some v => jsTruthy v
  | none => false

/-- Function `resolveParameterValue` (src/utils/parameterUtils.ts lines 38–51):
country-specific override resolution.  `if (country && typeof country ===
"string")` makes an empty country string falsy, skipping the lookup; the
lookup key is `country.toUpperCase()`, and the override is used only when
`overrides?.country?.[code] !== undefined`. -/
def resolveParameterValue (d : StoredParam) (country : Option String) : Value :=
  match country with
  | none => d.value
  | some c =>
    if c = "" then d.value
    else
      match storedCountryEntry d c with
      | some v => v
      | none => d.value

/-- Comparison `payload !== stored` for an optional stored string field
(`description`): against `undefined` every present payload value differs. -/
def jsStrictNeqOptStr (s : String) (t : Option String) : Bool :=
  match t with
  | some u => !(s == u)
  | none => true

/-- Comparison `payload !== stored` for an optional stored boolean field
(`isActive`). -/
def jsStrictNeqOptBool (b : Bool) (t : Option Bool) : Bool :=
  match t with
  | some u => !(b == u)
  | none => true

/-- Comparison `payload !== stored` for an optional stored parameter value
(an `overrides.country` entry), with object operands compared by reference
as in `jsStrictEqCross`. -/
def jsStrictNeqOptVal (v : Value) (w : Option Value) : Bool :=
  match w with
  | some u => !(jsStrictEqCross v u)
  | none => true

/-- One iteration of the `fieldsToCheck` loop of `detectConflictingFields`:
`if (updateData[field] !== undefined && updateData[field] !==
existingData[field]) conflicts.push(field)`. -/
def fieldConflict {α : Type} (name : String) (present : Option α) (neq : α → Bool) :
    List String :=
  match present with
  | some x => if neq x then [name] else []
  | none => []

/-- Override block of `detectConflictingFields`: loop over the concatenation
of the payload's and the stored document's country codes, pushing
`overrides.country.<CODE>` whenever the payload supplies a value for the
code (`updateVal !== undefined`) that is `!==` the stored one. -/
def overrideConflicts (uo eo : Overrides) : List String :=
  (cmKeys (uo.country.getD []) ++ cmKeys (eo.country.getD [])).filterMap
    (fun c =>
      match cmLookup (uo.country.getD []) c with
      | some uv =>
        if jsStrictNeqOptVal uv (cmLookup (eo.country.getD []) c) then
          some ("overrides.country." ++ c)
        else none
      | none => none)

/-- Function `detectConflictingFields` (src/utils/configHelpers.ts lines 78–104).
Scalar fields `key`,`value`,`description`,`isActive` present in the payload
are compared to the stored document with `!==`; the override block runs only
when both the payload and the stored document carry an `overrides` object
(`if (updateData.overrides && existingData.overrides)`). -/
def detectConflictingFields (u : UpdateFields) (e : StoredParam) : List String :=
  fieldConflict "key" u.key (fun k => !(k == e.key)) ++
  fieldConflict "value" u.value (fun v => !(jsStrictEqCross v e.value)) ++
  fieldConflict "description" u.description (fun s => jsStrictNeqOptStr s e.description) ++
  fieldConflict "isActive" u.isActive (fun b => jsStrictNeqOptBool b e.isActive) ++
  (match u.overrides, e.overrides with
   | some uo, some eo => overrideConflicts uo eo
   | _, _ => [])

/-- The merge mode argument of `mergeOverrides`. -/
inductive MergeOp where
  | merge
  | replace
deriving DecidableEq

/-- Function `mergeOverrides` (src/utils/configHelpers.ts lines 291–311): `replace`
returns the incoming object; `merge` copies the existing object and, when the
incoming object carries a `country` map (`if (newOverrides.country)`, and an
empty JS object is truthy), overwrites it with `{ ...existing.country,
...incoming.country }`. -/
def mergeOverrides (existingOverrides newOverrides : Overrides) (operation : MergeOp) :
    Overrides :=
  match operation with
  | .replace => newOverrides
  | .merge =>
    match newOverrides.country with
    | some incoming =>
      { existingOverrides with
        country := some (cmMergeRight (existingOverrides.country.getD []) incoming) }
    | none => existingOverrides

/-- Function `removeCountryOverride` (src/utils/configHelpers.ts lines 316–325):
drops `country[code.toUpperCase()]` when a country map is present. -/
def removeCountryOverride (overrides : Overrides) (countryCode : String) : Overrides :=
  match overrides.country with
  | some m => { overrides with country := some (cmRemove m (jsToUpper countryCode)) }
  | none => overrides

/-- Function `setCountryOverride` (src/utils/configHelpers.ts lines 330–340):
creates the country map when absent and assigns
`country[code.toUpperCase()] = value`. -/
def setCountryOverride (overrides : Overrides) (countryCode : String) (value : Value) :
    Overrides :=
  { overrides with
    country := some (cmInsert (overrides.country.getD []) (jsToUpper countryCode) value) }

/-- The regex `/^[A-Z]{2}$/`: exactly two uppercase ASCII letters. -/
def isTwoUpper (s : String) : Bool :=
  s.length == 2 && s.data.all (fun ch => 'A' ≤ ch && ch ≤ 'Z')

/-- Gate of `validateCountryOverrideOperation`: the code-format check
(src/utils/configHelpers.ts lines 345–359): rejects an empty code and any
code whose uppercasing is not two uppercase letters.  (The `value` presence
check for `set` is enforced by the Joi schema in the model, where the value
argument is required.) -/
def countryCodeOk (countryCode : String) : Bool :=
  countryCode ≠ "" && isTwoUpper (jsToUpper countryCode)

/-- Function `createParameterObject` (src/utils/configHelpers.ts lines 109–142):
builds the document written by create (version 0, `createdAt` set) and by a
full update (version `currentVersion + 1`, `createdAt` left untouched — the
result carries `none` there and the transaction keeps the stored value).
`description || ""` stores the empty string for an absent (or empty)
description, `overrides || {}` stores an empty overrides object when absent,
and `isActive !== undefined ? isActive : true` defaults to active. -/
def createParameterObject (body : ParameterBody) (uid : String) (isUpdate : Bool)
    (currentVersion : Nat) (now : Nat) : StoredParam :=
  { key := body.key
    value := body.value
    description := some (body.description.getD "")
    overrides := some (body.overrides.getD emptyOverrides)
    isActive := some (body.isActive.getD true)
    version := some (if isUpdate then incrementVersion currentVersion else 0)
    createdAt := if isUpdate then none else some now
    updatedAt := some now
    lastUpdatedBy := some uid }

/-- The structured detail carried by a `ConflictError`
(src/controllers/configController.ts lines 241–247). -/
structure ConflictDetails where
  currentVersion : Nat
  providedVersion : Nat
  lastModifiedBy : String
  lastModifiedAt : Option Nat
  conflictingFields : List String

/-- Outcome of one mutating operation's store interaction.  `success`
carries the document the transaction commits; every other constructor is a
thrown error, which aborts the Firestore transaction without writing. -/
inductive TxnResult where
  | success (doc : StoredParam)
  | deleted
  | conflict (details : ConflictDetails)
  | notFound
  | validationError (message field : String)
  | timeout

/-- The document visible after the operation: only `success` replaces the
stored document, every thrown error leaves it untouched (a Firestore
transaction that throws commits nothing). -/
def applyResult (old : StoredParam) (r : TxnResult) : StoredParam :=
  match r with
  | .success d => d
  | _ => old

/-- The per-operation version conflict test
(`lastKnownVersion !== undefined && lastKnownVersion !== currentVersion &&
!forceUpdate`, src/controllers/configController.ts lines 224, 392 and 515). -/
def hasVersionConflict (lastKnownVersion : Option Nat) (currentVersion : Nat)
    (forceUpdate : Bool) : Bool :=
  match lastKnownVersion with
  | some p => p != currentVersion && !forceUpdate
  | none => false

/-- The transaction body of `updateParameter`
(src/controllers/configController.ts lines 213–266).  Missing document →
thrown `NotFound`; `currentVersion = existingData.version || 0`; a provided
`lastKnownVersion` different from `currentVersion` without `forceUpdate`
throws a `ConflictError` built from the identity resolver and
`detectConflictingFields`; otherwise the incoming overrides are merged into
the existing ones (`merge` mode) — or the existing ones are kept when the
payload omits `overrides` — and `createParameterObject` produces the
document committed by `transaction.update`, which leaves `createdAt`
untouched. -/
def updateParameterOp (resolve : String → String) (stored : Option StoredParam)
    (lastKnownVersion : Option Nat) (forceUpdate : Bool)
    (updateData : ParameterBody) (uid : String) (now : Nat) : TxnResult :=
  match stored with
  | none => .notFound
  | some d =>
    let currentVersion := d.version.getD 0
    if hasVersionConflict lastKnownVersion currentVersion forceUpdate then
      .conflict
        { currentVersion := currentVersion
          providedVersion := lastKnownVersion.getD 0
          lastModifiedBy := resolve (d.lastUpdatedBy.getD "")
          lastModifiedAt := d.updatedAt
          conflictingFields := detectConflictingFields (toUpdateFields updateData) d }
    else
      let mergedOverrides :=
        match updateData.overrides with
        | some incoming => mergeOverrides (d.overrides.getD emptyOverrides) incoming .merge
        | none => d.overrides.getD emptyOverrides
      let mergedRequestBody := { updateData with overrides := some mergedOverrides }
      let written := createParameterObject mergedRequestBody uid true currentVersion now
      .success { written with createdAt := d.createdAt }

/-- Core of `setCountryOverrideController`
(src/controllers/configController.ts lines 361–416): country-code format
validation first (`validateCountryOverrideOperation`), then the transaction —
missing document → `NotFound`; version conflict → `ConflictError` whose
`conflictingFields` is always the single targeted path
`overrides.country.<CODE>`; otherwise `setCountryOverride` updates the map
and the document is rewritten with `version = incrementVersion(current)`. -/
def setCountryOverrideOp (resolve : String → String) (stored : Option StoredParam)
    (countryCode : String) (value : Value) (lastKnownVersion : Option Nat)
    (forceUpdate : Bool) (uid : String) (now : Nat) : TxnResult :=
  if countryCodeOk countryCode = false then
    .validationError "Invalid country code format. Must be 2 uppercase letters." "countryCode"
  else
    match stored with
    | none => .notFound
    | some d =>
      let currentVersion := d.version.getD 0
      if hasVersionConflict lastKnownVersion currentVersion forceUpdate then
        .conflict
          { currentVersion := currentVersion
            providedVersion := lastKnownVersion.getD 0
            lastModifiedBy := resolve (d.lastUpdatedBy.getD "")
            lastModifiedAt := d.updatedAt
            conflictingFields := ["overrides.country." ++ (jsToUpper countryCode)] }
      else
        let updatedOverrides := setCountryOverride (d.overrides.getD emptyOverrides) countryCode value
        .success
          { d with
            overrides := some updatedOverrides
            version := some (incrementVersion currentVersion)
            updatedAt := some now
            lastUpdatedBy := some uid }

/-- Core of `deleteCountryOverrideController`
(src/controllers/configController.ts lines 476–539): country-code format
validation, then the transaction — missing document → `NotFound`; then the
existence gate `if (!existingData.overrides?.country?.[code.toUpperCase()])`
throws a `ValidationError` (note: a JS truthiness test, so an override stored
as `false`, `0`, `""` or `null` also trips it) BEFORE the version-conflict
check; then the conflict check as in the other mutations; otherwise
`removeCountryOverride` drops the entry and the version is incremented. -/
def deleteCountryOverrideOp (resolve : String → String) (stored : Option StoredParam)
    (countryCode : String) (lastKnownVersion : Option Nat)
    (forceUpdate : Bool) (uid : String) (now : Nat) : TxnResult :=
  if countryCodeOk countryCode = false then
    .validationError "Invalid country code format. Must be 2 uppercase letters." "countryCode"
  else
    match stored with
    | none => .notFound
    | some d =>
      let currentVersion := d.version.getD 0
      if jsTruthyOpt (storedCountryEntry d countryCode) = false then
        .validationError
          ("Country override for " ++ (jsToUpper countryCode) ++ " does not exist") "countryCode"
      else if hasVersionConflict lastKnownVersion currentVersion forceUpdate then
        .conflict
          { currentVersion := currentVersion
            providedVersion := lastKnownVersion.getD 0
            lastModifiedBy := resolve (d.lastUpdatedBy.getD "")
            lastModifiedAt := d.updatedAt
            conflictingFields := ["overrides.country." ++ (jsToUpper countryCode)] }
      else
        let updatedOverrides := removeCountryOverride (d.overrides.getD emptyOverrides) countryCode
        .success
          { d with
            overrides := some updatedOverrides
            version := some (incrementVersion currentVersion)
            updatedAt := some now
            lastUpdatedBy := some uid }

/-- Direct `db.runTransaction(fn)` as called by `updateParameter`,
`setCountryOverrideController` and `deleteCountryOverrideController`
(src/controllers/configController.ts lines 213, 381, 498): the transaction's
outcome is returned whatever wall-clock time it takes — no timer races it. -/
def runTransactionUnbounded (durationMs : Nat) (txn : TxnResult) : TxnResult :=
  txn

/-- Function `executeTransactionWithTimeout` (src/utils/configHelpers.ts lines
184–203): `Promise.race` between the transaction and a timer of `timeoutMs`
milliseconds; when the transaction has not settled by the deadline the timer
wins and a `DatabaseError("Transaction timeout")` surfaces, modelled as
`TxnResult.timeout`. -/
def executeTransactionWithTimeout (durationMs timeoutMs : Nat) (txn : TxnResult) :
    TxnResult :=
  if timeoutMs ≤ durationMs then .timeout else txn

/-- Transaction execution of `updateParameter` including its runner: the
controller awaits `db.runTransaction` directly, so the store interaction is
not bounded by any timeout. -/
def updateParameterRun (durationMs : Nat) (resolve : String → String)
    (stored : Option StoredParam) (lastKnownVersion : Option Nat) (forceUpdate : Bool)
    (updateData : ParameterBody) (uid : String) (now : Nat) : TxnResult :=
  runTransactionUnbounded durationMs
    (updateParameterOp resolve stored lastKnownVersion forceUpdate updateData uid now)

/-- Transaction execution of `setCountryOverrideController`: a direct
`db.runTransaction`, unbounded. -/
def setCountryOverrideRun (durationMs : Nat) (resolve : String → String)
    (stored : Option StoredParam) (countryCode : String) (value : Value)
    (lastKnownVersion : Option Nat) (forceUpdate : Bool) (uid : String) (now : Nat) :
    TxnResult :=
  runTransactionUnbounded durationMs
    (setCountryOverrideOp resolve stored countryCode value lastKnownVersion forceUpdate uid now)

/-- Transaction execution of `deleteCountryOverrideController`: a direct
`db.runTransaction`, unbounded. -/
def deleteCountryOverrideRun (durationMs : Nat) (resolve : String → String)
    (stored : Option StoredParam) (countryCode : String) (lastKnownVersion : Option Nat)
    (forceUpdate : Bool) (uid : String) (now : Nat) : TxnResult :=
  runTransactionUnbounded durationMs
    (deleteCountryOverrideOp resolve stored countryCode lastKnownVersion forceUpdate uid now)

/-- Controller `deleteParameter` (src/controllers/configController.ts lines 315–359):
`fetchParameterDocument` throws `NotFound` for a missing id, then the delete
runs inside `executeTransactionWithTimeout` with its default 30000 ms
budget — the only mutating operation that uses the timeout wrapper. -/
def deleteParameterRun (durationMs : Nat) (stored : Option StoredParam) : TxnResult :=
  match stored with
  | none => .notFound
  | some _ => executeTransactionWithTimeout durationMs 30000 .deleted

/-- Constant `Number.MAX_SAFE_INTEGER`. -/
def jsMaxSafeInteger : Int := 9007199254740991

/-- Validator `secureParameterValue` (src/middleware/validation.ts lines 71–75):
`Joi.alternatives().try(secureString.max(10000), Joi.number().min(-MAX_SAFE)
.max(MAX_SAFE), Joi.boolean())`.  A value is accepted when one alternative
matches: a string that passes the suspicious-pattern scan (abstracted as the
`stringCheck` argument — it inspects only the characters of the string) and
is at most 10000 characters, a number within the safe-integer bounds, or a
boolean.  There is no object alternative, so a structured object (and null)
never matches. -/
def secureParameterValueAccepts (stringCheck : String → Bool) : Value → Bool
  | .vstr s => stringCheck s && s.length ≤ 10000
  | .vnum n => -jsMaxSafeInteger ≤ n && n ≤ jsMaxSafeInteger
  | .vbool _ => true
  | .vobj _ => false
  | .vnull => false

/-- The flat resolved client configuration: parameter key → resolved value. -/
abbrev Config := List (String × Value)

/-- Function `isValidParameterDocument` (src/utils/configHelpers.ts lines 23–29) on a
well-typed document: the data is present and `key` a string by construction,
so the surviving test is `isActive === false` → skip. -/
def isValidParameterDocument (d : StoredParam) : Bool :=
  d.isActive != some false

/-- Function `buildConfigurationObject` (src/utils/configHelpers.ts lines 53–73):
fold over the snapshot documents, skipping invalid/inactive ones, assigning
`config[key] = resolveParameterValue(data, country)` (a later document with
the same key overwrites the earlier entry, as JS assignment does). -/
def buildConfigurationObject (docs : List StoredParam) (country : Option String) :
    Config :=
  docs.foldl
    (fun config d =>
      if isValidParameterDocument d then
        cmInsert config d.key (resolveParameterValue d country)
      else config)
    []

/-- The Redis cache contents, keyed by cache key.  `failing = true` models a
backend for which every call errors (connection failure, timeout, protocol
error). -/
structure CacheState where
  failing : Bool
  entries : List (String × Config)

/-- Method `CacheService.get` (src/services/cacheService.ts lines 75–97): a backend
error is caught and `null` is returned so the caller falls back to the
database; otherwise a missing key is a miss (`null`). -/
def cacheServiceGet (st : CacheState) (key : String) : Option Config :=
  if st.failing then none
  else ((st.entries.find? (fun p => p.1 == key)).map (fun p => p.2))

/-- Method `CacheService.set` (src/services/cacheService.ts lines 102–119): a
backend error is caught and swallowed, leaving the cache unchanged;
otherwise the entry is stored (TTL not modelled). -/
def cacheServiceSet (st : CacheState) (key : String) (data : Config) : CacheState :=
  if st.failing then st
  else { st with entries := (key, data) :: st.entries.filter (fun p => p.1 != key) }

/-- Method `CacheService.getOrSet` (src/services/cacheService.ts lines 207–227):
try the cache; on a hit return the cached snapshot, on a miss (including any
backend read error) compute via `fetchFn`, best-effort store the result
(write errors swallowed), and return the computed data. -/
def cacheServiceGetOrSet (st : CacheState) (key : String) (fetched : Config) :
    Config × CacheState :=
  match cacheServiceGet st key with
  | some cached => (cached, st)
  | none => (fetched, cacheServiceSet st key fetched)

/-- Key builder `CacheKeys.CLIENT_CONFIG` (src/services/cacheService.ts line 333):
`acme:config:client:${country || "default"}`. -/
def clientConfigCacheKey (country : Option String) : String :=
  "acme:config:client:" ++
    (match country with
     | some c => if c = "" then "default" else c
     | none => "default")

/-- Controller `getClientConfig` (src/controllers/clientConfigController.ts lines
7–39): get-or-compute of the resolved snapshot — on a cache miss the active
parameters are read from the store and resolved for the requested country by
`buildConfigurationObject`. -/
def getClientConfigRun (st : CacheState) (docs : List StoredParam)
    (country : Option String) : Config × CacheState :=
  cacheServiceGetOrSet st (clientConfigCacheKey country)
    (buildConfigurationObject docs country)

/-- One mutating request against a single parameter, for reasoning about
sequences of mutations. -/
inductive MutationOp where
  | fullUpdate (lastKnownVersion : Option Nat) (forceUpdate : Bool) (body : ParameterBody)
  | setOverride (countryCode : String) (value : Value) (lastKnownVersion : Option Nat)
      (forceUpdate : Bool)
  | removeOverride (countryCode : String) (lastKnownVersion : Option Nat)
      (forceUpdate : Bool)

/-- Dispatch one mutation against the stored document. -/
def applyMutation (resolve : String → String) (uid : String) (now : Nat)
    (d : StoredParam) : MutationOp → TxnResult
  | .fullUpdate lkv force body => updateParameterOp resolve (some d) lkv force body uid now
  | .setOverride code v lkv force =>
    setCountryOverrideOp resolve (some d) code v lkv force uid now
  | .removeOverride code lkv force =>
    deleteCountryOverrideOp resolve (some d) code lkv force uid now

/-- Run a sequence of mutations; `none` as soon as one of them fails, the
committed document when all of them succeed. -/
def runMutations (resolve : String → String) (uid : String) (now : Nat)
    (d : StoredParam) : List MutationOp → Option StoredParam
  | [] => some d
  | op :: rest =>
    match applyMutation resolve uid now d op with
    | .success d2 => runMutations resolve uid now d2 rest
    | _ => none

/-- Well-formedness of the stored country-override keys: every key is
exactly two uppercase ASCII letters (the data-model invariant every write
path enforces through the Joi schemas and
`validateCountryOverrideOperation`). -/
def countryKeysWellFormed (d : StoredParam) : Bool :=
  match d.overrides with
  | none => true
  | some o =>
    match o.country with
    | none => true
    | some m => m.all (fun p => isTwoUpper p.1)

/-- Sample stored document: version 5, overrides `US ↦ "B"`, `FR ↦ "C"`,
last edited by `alice`. -/
def sampleDoc : StoredParam :=
  { key := "k"
    value := Value.vstr "A"
    description := some "d"
    overrides := some { country := some [("US", Value.vstr "B"), ("FR", Value.vstr "C")] }
    isActive := some true
    version := some 5
    createdAt := some 1
    updatedAt := some 2
    lastUpdatedBy := some "alice" }

/-- Sample stored document with an empty country map, version 5. -/
def sampleDocNoOverride : StoredParam :=
  { sampleDoc with overrides := some { country := some [] } }

/-- Sample stored document whose `US` override is the boolean `false`. -/
def sampleDocFalseOverride : StoredParam :=
  { sampleDoc with overrides := some { country := some [("US", Value.vbool false)] } }

/-- Sample stored document that is inactive and has a nonempty description. -/
def sampleDocInactive : StoredParam :=
  { sampleDoc with isActive := some false, description := some "old text" }

/-- Sample full-update body that omits `description`, `isActive` and
`overrides`. -/
def sampleBody : ParameterBody :=
  { key := "k"
    value := Value.vstr "A"
    description := none
    isActive := none
    overrides := none }

theorem cmLookup_nil (k : String) : cmLookup [] k = none := rfl

theorem cmLookup_cons (p : String × Value) (t : CountryMap) (k : String) :
    cmLookup (p :: t) k = if p.1 == k then some p.2 else cmLookup t k := by
  by_cases h : p.1 == k
  · simp [cmLookup, List.find?, h]
  · simp only [Bool.not_eq_true] at h
    simp [cmLookup, List.find?, h]

theorem cmLookup_append (x y : CountryMap) (k : String) :
    cmLookup (x ++ y) k =
      match cmLookup x k with
      | some v => some v
      | none => cmLookup y k := by
  induction x with
  | nil => simp [cmLookup_nil]
  | cons p t ih =>
    by_cases h : p.1 == k
    · simp [cmLookup_cons, h]
    · simp only [Bool.not_eq_true] at h
      simp [cmLookup_cons, h, ih]

theorem cmLookup_map_update (b : CountryMap) (k : String) (a : CountryMap) :
    cmLookup (a.map (fun p =>
      match cmLookup b p.1 with
      | some v => (p.1, v)
      | none => p)) k =
      match cmLookup a k with
      | some v => some ((cmLookup b k).getD v)
      | none => none := by
  induction a with
  | nil => simp [cmLookup_nil]
  | cons p t ih =>
    rw [List.map_cons, cmLookup_cons, cmLookup_cons]
    cases hb : cmLookup b p.1
    · by_cases h : (p.1 == k) = true
      · have hk : p.1 = k := by simpa using h
        rw [hk] at hb
        simp [h, hb]
      · simp only [Bool.not_eq_true] at h
        simp [h, ih]
    · by_cases h : (p.1 == k) = true
      · have hk : p.1 = k := by simpa using h
        rw [hk] at hb
        simp [h, hb]
      · simp only [Bool.not_eq_true] at h
        simp [h, ih]

theorem cmLookup_filter_isNone (a : CountryMap) (k : String) (b : CountryMap) :
    cmLookup (b.filter (fun q => (cmLookup a q.1).isNone)) k =
      match cmLookup a k with
      | some _ => none
      | none => cmLookup b k := by
  induction b with
  | nil => cases cmLookup a k <;> simp [cmLookup_nil]
  | cons q t ih =>
    rw [List.filter_cons]
    by_cases hq : (cmLookup a q.1).isNone = true
    · rw [if_pos hq, cmLookup_cons]
      by_cases h : (q.1 == k) = true
      · have hk : q.1 = k := by simpa using h
        rw [hk] at hq
        have ha : cmLookup a k = none := by
          cases hx : cmLookup a k <;> simp [hx] at hq ⊢
        simp [h, ha, cmLookup_cons]
      · simp only [Bool.not_eq_true] at h
        simp [h, ih, cmLookup_cons]
    · rw [if_neg hq]
      by_cases h : (q.1 == k) = true
      · have hk : q.1 = k := by simpa using h
        rw [hk] at hq
        have ha : ∃ v, cmLookup a k = some v := by
          cases hx : cmLookup a k
          · simp [hx] at hq
          · exact ⟨_, rfl⟩
        obtain ⟨v, ha⟩ := ha
        simp [ha] at ih ⊢
        exact ih
      · simp only [Bool.not_eq_true] at h
        rw [ih]
        cases ha : cmLookup a k
        · simp [cmLookup_cons, h]
        · simp

theorem cmLookup_mergeRight (a b : CountryMap) (k : String) :
    cmLookup (cmMergeRight a b) k =
      match cmLookup b k with
      | some v => some v
      | none => cmLookup a k := by
  unfold cmMergeRight
  rw [cmLookup_append, cmLookup_map_update, cmLookup_filter_isNone]
  cases ha : cmLookup a k <;> cases hb : cmLookup b k <;> simp

theorem cmLookup_mem_keys (m : CountryMap) (k : String) (v : Value)
    (h : cmLookup m k = some v) : k ∈ cmKeys m := by
  induction m with
  | nil => simp [cmLookup_nil] at h
  | cons p t ih =>
    rw [cmLookup_cons] at h
    by_cases hp : p.1 == k
    · have : p.1 = k := by simpa using hp
      simp [cmKeys, this]
    · simp only [Bool.not_eq_true] at hp
      simp only [hp, if_false] at h
      simp [cmKeys] at ih ⊢
      exact Or.inr (ih h)

theorem cmLookup_empty_key_none (m : CountryMap)
    (h : m.all (fun p => isTwoUpper p.1) = true) : cmLookup m "" = none := by
  induction m with
  | nil => simp [cmLookup_nil]
  | cons p t ih =>
    simp only [List.all_cons, Bool.and_eq_true] at h
    rw [cmLookup_cons]
    have hp : (p.1 == "") = false := by
      by_contra hc
      simp only [Bool.not_eq_false, beq_iff_eq] at hc
      rw [hc] at h
      simp [isTwoUpper] at h
    simp [hp, ih h.2]

theorem updateParameterOp_success_version (resolve : String → String) (d : StoredParam)
    (lkv : Option Nat) (force : Bool) (body : ParameterBody) (uid : String) (now : Nat)
    (d2 : StoredParam)
    (h : updateParameterOp resolve (some d) lkv force body uid now = .success d2) :
    d2.version = some (d.version.getD 0 + 1) := by
  simp only [updateParameterOp] at h
  split at h
  · exact absurd h (by simp)
  · simp only [TxnResult.success.injEq] at h
    subst h
    simp [createParameterObject, incrementVersion]

theorem setCountryOverrideOp_success_version (resolve : String → String) (d : StoredParam)
    (code : String) (v : Value) (lkv : Option Nat) (force : Bool) (uid : String) (now : Nat)
    (d2 : StoredParam)
    (h : setCountryOverrideOp resolve (some d) code v lkv force uid now = .success d2) :
    d2.version = some (d.version.getD 0 + 1) := by
  simp only [setCountryOverrideOp] at h
  split at h
  · exact absurd h (by simp)
  · split at h
    · exact absurd h (by simp)
    · simp only [TxnResult.success.injEq] at h
      subst h
      simp [incrementVersion]

theorem deleteCountryOverrideOp_success_version (resolve : String → String) (d : StoredParam)
    (code : String) (lkv : Option Nat) (force : Bool) (uid : String) (now : Nat)
    (d2 : StoredParam)
    (h : deleteCountryOverrideOp resolve (some d) code lkv force uid now = .success d2) :
    d2.version = some (d.version.getD 0 + 1) := by
  simp only [deleteCountryOverrideOp] at h
  split at h
  · exact absurd h (by simp)
  · split at h
    · exact absurd h (by simp)
    · split at h
      · exact absurd h (by simp)
      · simp only [TxnResult.success.injEq] at h
        subst h
        simp [incrementVersion]

theorem applyMutation_success_version (resolve : String → String) (uid : String) (now : Nat)
    (d : StoredParam) (op : MutationOp) (d2 : StoredParam)
    (h : applyMutation resolve uid now d op = .success d2) :
    d2.version = some (d.version.getD 0 + 1) := by
  cases op with
  | fullUpdate lkv force body =>
    exact updateParameterOp_success_version resolve d lkv force body uid now d2 h
  | setOverride code v lkv force =>
    exact setCountryOverrideOp_success_version resolve d code v lkv force uid now d2 h
  | removeOverride code lkv force =>
    exact deleteCountryOverrideOp_success_version resolve d code lkv force uid now d2 h

theorem runMutations_version (resolve : String → String) (uid : String) (now : Nat) :
    ∀ (ops : List MutationOp) (d d2 : StoredParam),
      runMutations resolve uid now d ops = some d2 →
      d2.version.getD 0 = d.version.getD 0 + ops.length := by
  intro ops
  induction ops with
  | nil =>
    intro d d2 h
    simp only [runMutations, Option.some.injEq] at h
    subst h
    simp
  | cons op rest ih =>
    intro d d2 h
    unfold runMutations at h
    split at h
    case _ dmid hmid =>
      have hstep := applyMutation_success_version resolve uid now d op dmid hmid
      have htail := ih dmid d2 h
      rw [htail, hstep]
      simp [List.length_cons]
      omega
    all_goals exact absurd h (by simp)

theorem mem_fieldConflict {α : Type} (name : String) (o : Option α) (neq : α → Bool)
    (f : String) :
    f ∈ fieldConflict name o neq ↔ (f = name ∧ ∃ x, o = some x ∧ neq x = true) := by
  cases o with
  | none => simp [fieldConflict]
  | some x => by_cases h : neq x = true <;> simp [fieldConflict, h]

theorem mem_overrideConflicts (uo eo : Overrides) (f : String) :
    f ∈ overrideConflicts uo eo ↔
      ∃ c uv, cmLookup (uo.country.getD []) c = some uv ∧
        jsStrictNeqOptVal uv (cmLookup (eo.country.getD []) c) = true ∧
        f = "overrides.country." ++ c := by
  unfold overrideConflicts
  rw [List.mem_filterMap]
  constructor
  · rintro ⟨c, hc, hfn⟩
    cases hl : cmLookup (uo.country.getD []) c with
    | none => exact absurd hfn (by simp [hl])
    | some uv =>
      simp only [hl] at hfn
      by_cases hneq : jsStrictNeqOptVal uv (cmLookup (eo.country.getD []) c) = true
      · simp only [hneq, if_true, Option.some.injEq] at hfn
        exact ⟨c, uv, hl, hneq, hfn.symm⟩
      · simp only [Bool.not_eq_true] at hneq
        simp [hneq] at hfn
  · rintro ⟨c, uv, hl, hneq, rfl⟩
    refine ⟨c, List.mem_append_left _ (cmLookup_mem_keys _ c uv hl), ?_⟩
    simp [hl, hneq]

/-- C2: the parameter's `version` starts at 0 on creation
(`createParameterObject` with `isUpdate = false`), and every successful
mutating operation (full update, country-override set, country-override
delete) increments it by exactly 1, so a sequence of `N` successful
mutations ends at the initial version plus `N` — the version is never
decremented or skipped. -/
theorem C2_version_monotonicity :
    (∀ (body : ParameterBody) (uid : String) (cv now : Nat),
      (createParameterObject body uid false cv now).version = some 0)
    ∧ (∀ (resolve : String → String) (uid : String) (now : Nat)
        (ops : List MutationOp) (d d2 : StoredParam),
        runMutations resolve uid now d ops = some d2 →
        d2.version.getD 0 = d.version.getD 0 + ops.length) := by
  constructor
  · intro body uid cv now
    simp [createParameterObject]
  · intro resolve uid now ops d d2 h
    exact runMutations_version resolve uid now ops d d2 h

/-- C2 witness: creating a parameter stores version 0, and two successful
mutations (an override set followed by an override delete) on a document at
version 5 end at version 7. -/
theorem C2_witness :
    (createParameterObject sampleBody "u" false 0 9).version = some 0 ∧
    ∃ d2, runMutations (fun s => s) "u" 9 sampleDocNoOverride
        [MutationOp.setOverride "US" (Value.vstr "B") none false,
         MutationOp.removeOverride "US" none false] = some d2 ∧
      d2.version.getD 0 = sampleDocNoOverride.version.getD 0 + 2 := by
  have h : runMutations (fun s => s) "u" 9 sampleDocNoOverride
      [MutationOp.setOverride "US" (Value.vstr "B") none false,
       MutationOp.removeOverride "US" none false] = some
        { key := "k", value := Value.vstr "A", description := some "d"
          overrides := some { country := some [] }, isActive := some true
          version := some 7, createdAt := some 1, updatedAt := some 9
          lastUpdatedBy := some "u" } := rfl
  exact ⟨C2_version_monotonicity.1 sampleBody "u" 0 9, _, h,
    C2_version_monotonicity.2 (fun s => s) "u" 9
      [MutationOp.setOverride "US" (Value.vstr "B") none false,
       MutationOp.removeOverride "US" none false] sampleDocNoOverride _ h⟩

/-- C5: `resolveParameterValue` returns the stored country override for the
uppercased locale when one is defined and the parameter's default `value`
otherwise (locale absent or no override), and locale matching is
case-insensitive on input (`us` resolves like `US`), for every document
whose override keys satisfy the two-uppercase-letters invariant. -/
theorem C5_resolve_locale (d : StoredParam) (h : countryKeysWellFormed d = true) :
    (∀ c : String, resolveParameterValue d (some c) =
      match storedCountryEntry d c with
      | some v => v
      | none => d.value)
    ∧ resolveParameterValue d none = d.value
    ∧ resolveParameterValue d (some "us") = resolveParameterValue d (some "US") := by
  have hmain : ∀ c : String, resolveParameterValue d (some c) =
      match storedCountryEntry d c with
      | some v => v
      | none => d.value := by
    intro c
    by_cases hc : c = ""
    · subst hc
      have hs : storedCountryEntry d "" = none := by
        cases ho : d.overrides with
        | none => simp [storedCountryEntry, ho]
        | some o =>
          cases hoc : o.country with
          | none => simp [storedCountryEntry, ho, hoc]
          | some m =>
            have hall : m.all (fun p => isTwoUpper p.1) = true := by
              simpa [countryKeysWellFormed, ho, hoc] using h
            simp only [storedCountryEntry, ho, hoc]
            exact cmLookup_empty_key_none m hall
      rw [hs]
      simp [resolveParameterValue]
    · simp only [resolveParameterValue]
      rw [if_neg hc]
  have hus : storedCountryEntry d "us" = storedCountryEntry d "US" := by
    simp only [storedCountryEntry, show jsToUpper "us" = jsToUpper "US" from rfl]
  refine ⟨hmain, rfl, ?_⟩
  rw [hmain "us", hmain "US", hus]

/-- C5 witness: the sample document has well-formed override keys, and the
lowercase locale `us` resolves exactly like `US`. -/
theorem C5_witness :
    countryKeysWellFormed sampleDoc = true ∧
    resolveParameterValue sampleDoc (some "us") = resolveParameterValue sampleDoc (some "US") :=
  ⟨rfl, (C5_resolve_locale sampleDoc rfl).2.2⟩

/-- C8: with the cache backend erroring on every call, reading the client
configuration still returns exactly the resolved snapshot computed directly
from the Parameter Store — read errors act as a miss, write errors as a
no-op, and no cache error escapes the cache layer. -/
theorem C8_cache_error_fallback (entries : List (String × Config))
    (docs : List StoredParam) (country : Option String) :
    (getClientConfigRun { failing := true, entries := entries } docs country).1
      = buildConfigurationObject docs country := by
  simp [getClientConfigRun, cacheServiceGetOrSet, cacheServiceGet]

/-- C10: a successful full update does not preserve omitted optional fields
from the stored document: omitting `isActive` stores `true` and omitting
`description` stores `""`, whatever was stored before — in particular a full
update that omits `isActive` re-activates an inactive parameter. -/
theorem C10_update_omitted_fields_reset (resolve : String → String) (d : StoredParam)
    (lkv : Option Nat) (force : Bool) (body : ParameterBody) (uid : String) (now : Nat)
    (d2 : StoredParam) (hA : body.isActive = none) (hD : body.description = none)
    (h : updateParameterOp resolve (some d) lkv force body uid now = .success d2) :
    d2.isActive = some true ∧ d2.description = some "" := by
  simp only [updateParameterOp] at h
  split at h
  · exact absurd h (by simp)
  · simp only [TxnResult.success.injEq] at h
    subst h
    simp [createParameterObject, hA, hD]

/-- C10 witness: updating the inactive sample document (stored
`isActive = false`, description `"old text"`) with a payload omitting both
fields succeeds and stores `isActive = true` and description `""`. -/
theorem C10_witness :
    sampleDocInactive.isActive = some false ∧
    sampleBody.isActive = none ∧ sampleBody.description = none ∧
    ∃ d2, updateParameterOp (fun s => s) (some sampleDocInactive) none false sampleBody
        "u" 9 = TxnResult.success d2 ∧
      d2.isActive = some true ∧ d2.description = some "" := by
  have h : updateParameterOp (fun s => s) (some sampleDocInactive) none false sampleBody
      "u" 9 = TxnResult.success
        { key := "k", value := Value.vstr "A", description := some ""
          overrides := some { country := some [("US", Value.vstr "B"), ("FR", Value.vstr "C")] }
          isActive := some true, version := some 6, createdAt := some 1, updatedAt := some 9
          lastUpdatedBy := some "u" } := rfl
  exact ⟨rfl, rfl, rfl, _, h, C10_update_omitted_fields_reset (fun s => s) sampleDocInactive
    none false sampleBody "u" 9 _ rfl rfl h⟩

/-- C4: in `merge` mode (the full-update default), `mergeOverrides` yields
the existing country map with each key present in the incoming map
overwritten and every other existing key preserved (lookups follow the
incoming map first, then the existing one); merging `{US:"D"}` into
`{US:"B",FR:"C"}` yields `{US:"D",FR:"C"}`; and a full update whose payload
omits `overrides` keeps the stored overrides object unchanged. -/
theorem C4_merge_overrides :
    (∀ (a : Overrides) (b : Overrides) (bm : CountryMap) (k : String),
      b.country = some bm →
      ∃ m2, (mergeOverrides a b MergeOp.merge).country = some m2 ∧
        cmLookup m2 k =
          match cmLookup bm k with
          | some v => some v
          | none => cmLookup (a.country.getD []) k)
    ∧ (∀ a b : Overrides, b.country = none → mergeOverrides a b MergeOp.merge = a)
    ∧ mergeOverrides { country := some [("US", Value.vstr "B"), ("FR", Value.vstr "C")] }
        { country := some [("US", Value.vstr "D")] } MergeOp.merge
        = { country := some [("US", Value.vstr "D"), ("FR", Value.vstr "C")] }
    ∧ (∀ (resolve : String → String) (d : StoredParam) (o : Overrides)
        (lkv : Option Nat) (force : Bool) (body : ParameterBody) (uid : String) (now : Nat)
        (d2 : StoredParam),
        body.overrides = none → d.overrides = some o →
        updateParameterOp resolve (some d) lkv force body uid now = TxnResult.success d2 →
        d2.overrides = some o) := by
  refine ⟨?_, ?_, rfl, ?_⟩
  · intro a b bm k hb
    refine ⟨cmMergeRight (a.country.getD []) bm, ?_, cmLookup_mergeRight _ _ _⟩
    simp [mergeOverrides, hb]
  · intro a b hb
    simp [mergeOverrides, hb]
  · intro resolve d o lkv force body uid now d2 hbody hd h
    simp only [updateParameterOp] at h
    split at h
    · exact absurd h (by simp)
    · simp only [TxnResult.success.injEq] at h
      subst h
      simp [createParameterObject, hbody, hd]

/-- C4 witness: merging an incoming `US` override into the sample overrides
keeps `FR` and overwrites `US`, and a full update of the sample document
with a payload omitting `overrides` leaves the stored overrides object
unchanged. -/
theorem C4_witness :
    ({ country := some [("US", Value.vstr "D")] } : Overrides).country
        = some [("US", Value.vstr "D")] ∧
    (∃ m2, (mergeOverrides { country := some [("US", Value.vstr "B"), ("FR", Value.vstr "C")] }
        { country := some [("US", Value.vstr "D")] } MergeOp.merge).country = some m2 ∧
      cmLookup m2 "FR" =
        match cmLookup [("US", Value.vstr "D")] "FR" with
        | some v => some v
        | none => cmLookup (({ country := some [("US", Value.vstr "B"), ("FR", Value.vstr "C")] }
            : Overrides).country.getD []) "FR") ∧
    sampleBody.overrides = none ∧ sampleDoc.overrides = some
      { country := some [("US", Value.vstr "B"), ("FR", Value.vstr "C")] } ∧
    ∃ d2, updateParameterOp (fun s => s) (some sampleDoc) (some 5) false sampleBody "u" 9
        = TxnResult.success d2 ∧
      d2.overrides = some { country := some [("US", Value.vstr "B"), ("FR", Value.vstr "C")] } := by
  have h : updateParameterOp (fun s => s) (some sampleDoc) (some 5) false sampleBody "u" 9
      = TxnResult.success
        { key := "k", value := Value.vstr "A", description := some ""
          overrides := some { country := some [("US", Value.vstr "B"), ("FR", Value.vstr "C")] }
          isActive := some true, version := some 6, createdAt := some 1, updatedAt := some 9
          lastUpdatedBy := some "u" } := rfl
  refine ⟨rfl, C4_merge_overrides.1 _ _ [("US", Value.vstr "D")] "FR" rfl, rfl, rfl, _, h, ?_⟩
  exact C4_merge_overrides.2.2.2 (fun s => s) sampleDoc _ (some 5) false sampleBody "u" 9
    _ rfl rfl h

/-- C1 counterexample: the claim requires every mutating operation with a
provided stale `lastKnownVersion` and `forceUpdate = false` to raise a
Conflict outcome (here with `currentVersion = 5`, `providedVersion = 3`),
but the delete-country-override operation on a parameter without a (truthy)
stored entry for the code raises `ValidationError` instead — its existence
gate runs before the version-conflict check. -/
theorem C1_counterexample :
    deleteCountryOverrideOp (fun s => s) (some sampleDocNoOverride) "US" (some 3) false
      "u" 9 =
    TxnResult.validationError "Country override for US does not exist" "countryCode" := rfl

/-- C1 (amended): for the full-update and set-country-override operations on
an existing parameter stored at version `V`, a provided `lastKnownVersion`
different from `V` with `forceUpdate = false` raises a Conflict outcome
carrying `currentVersion = V` and the caller's `providedVersion`, leaving
the stored document unchanged, and in every other case
(`lastKnownVersion = V`, omitted, or `forceUpdate = true`) the operation
succeeds at version `V + 1`; the delete-country-override operation behaves
the same only when the stored country map has a JS-truthy entry for the
uppercased code; otherwise it raises `ValidationError` regardless of
versions and leaves the document unchanged. -/
theorem C1_amended_conflict_protocol (resolve : String → String) (d : StoredParam)
    (body : ParameterBody) (code : String) (v : Value) (uid : String) (now : Nat) :
    (∀ p : Nat, p ≠ d.version.getD 0 →
      updateParameterOp resolve (some d) (some p) false body uid now =
        TxnResult.conflict
          { currentVersion := d.version.getD 0
            providedVersion := p
            lastModifiedBy := resolve (d.lastUpdatedBy.getD "")
            lastModifiedAt := d.updatedAt
            conflictingFields := detectConflictingFields (toUpdateFields body) d } ∧
      applyResult d (updateParameterOp resolve (some d) (some p) false body uid now) = d)
    ∧ (∀ (lkv : Option Nat) (force : Bool),
        (lkv = some (d.version.getD 0) ∨ lkv = none ∨ force = true) →
        ∃ d2, updateParameterOp resolve (some d) lkv force body uid now
            = TxnResult.success d2 ∧ d2.version = some (d.version.getD 0 + 1))
    ∧ (countryCodeOk code = true →
        ∀ p : Nat, p ≠ d.version.getD 0 →
        setCountryOverrideOp resolve (some d) code v (some p) false uid now =
          TxnResult.conflict
            { currentVersion := d.version.getD 0
              providedVersion := p
              lastModifiedBy := resolve (d.lastUpdatedBy.getD "")
              lastModifiedAt := d.updatedAt
              conflictingFields := ["overrides.country." ++ jsToUpper code] } ∧
        applyResult d (setCountryOverrideOp resolve (some d) code v (some p) false uid now)
          = d)
    ∧ (countryCodeOk code = true →
        ∀ (lkv : Option Nat) (force : Bool),
        (lkv = some (d.version.getD 0) ∨ lkv = none ∨ force = true) →
        ∃ d2, setCountryOverrideOp resolve (some d) code v lkv force uid now
            = TxnResult.success d2 ∧ d2.version = some (d.version.getD 0 + 1))
    ∧ (countryCodeOk code = true → jsTruthyOpt (storedCountryEntry d code) = true →
        ∀ p : Nat, p ≠ d.version.getD 0 →
        deleteCountryOverrideOp resolve (some d) code (some p) false uid now =
          TxnResult.conflict
            { currentVersion := d.version.getD 0
              providedVersion := p
              lastModifiedBy := resolve (d.lastUpdatedBy.getD "")
              lastModifiedAt := d.updatedAt
              conflictingFields := ["overrides.country." ++ jsToUpper code] } ∧
        applyResult d (deleteCountryOverrideOp resolve (some d) code (some p) false uid now)
          = d)
    ∧ (countryCodeOk code = true → jsTruthyOpt (storedCountryEntry d code) = true →
        ∀ (lkv : Option Nat) (force : Bool),
        (lkv = some (d.version.getD 0) ∨ lkv = none ∨ force = true) →
        ∃ d2, deleteCountryOverrideOp resolve (some d) code lkv force uid now
            = TxnResult.success d2 ∧ d2.version = some (d.version.getD 0 + 1))
    ∧ (countryCodeOk code = true → jsTruthyOpt (storedCountryEntry d code) = false →
        ∀ (lkv : Option Nat) (force : Bool),
        deleteCountryOverrideOp resolve (some d) code lkv force uid now =
          TxnResult.validationError
            ("Country override for " ++ jsToUpper code ++ " does not exist") "countryCode" ∧
        applyResult d (deleteCountryOverrideOp resolve (some d) code lkv force uid now)
          = d) := by
  have hvcT : ∀ p : Nat, p ≠ d.version.getD 0 →
      hasVersionConflict (some p) (d.version.getD 0) false = true := by
    intro p hp
    simp [hasVersionConflict, bne_iff_ne, hp]
  have hvcF : ∀ (lkv : Option Nat) (force : Bool),
      (lkv = some (d.version.getD 0) ∨ lkv = none ∨ force = true) →
      hasVersionConflict lkv (d.version.getD 0) force = false := by
    rintro lkv force (rfl | rfl | rfl)
    · simp [hasVersionConflict]
    · simp [hasVersionConflict]
    · cases lkv <;> simp [hasVersionConflict]
  refine ⟨?_, ?_, ?_, ?_, ?_, ?_, ?_⟩
  · intro p hp
    have h1 : updateParameterOp resolve (some d) (some p) false body uid now =
        TxnResult.conflict
          { currentVersion := d.version.getD 0
            providedVersion := p
            lastModifiedBy := resolve (d.lastUpdatedBy.getD "")
            lastModifiedAt := d.updatedAt
            conflictingFields := detectConflictingFields (toUpdateFields body) d } := by
      simp [updateParameterOp, hvcT p hp]
    exact ⟨h1, by rw [h1]; rfl⟩
  · intro lkv force hdisj
    simp only [updateParameterOp, hvcF lkv force hdisj, Bool.false_eq_true, if_false]
    exact ⟨_, rfl, by simp [createParameterObject, incrementVersion]⟩
  · intro hok p hp
    have h1 : setCountryOverrideOp resolve (some d) code v (some p) false uid now =
        TxnResult.conflict
          { currentVersion := d.version.getD 0
            providedVersion := p
            lastModifiedBy := resolve (d.lastUpdatedBy.getD "")
            lastModifiedAt := d.updatedAt
            conflictingFields := ["overrides.country." ++ jsToUpper code] } := by
      simp [setCountryOverrideOp, hok, hvcT p hp]
    exact ⟨h1, by rw [h1]; rfl⟩
  · intro hok lkv force hdisj
    simp only [setCountryOverrideOp, hok, Bool.true_eq_false, if_false,
      hvcF lkv force hdisj, Bool.false_eq_true]
    exact ⟨_, rfl, by simp [incrementVersion]⟩
  · intro hok ht p hp
    have h1 : deleteCountryOverrideOp resolve (some d) code (some p) false uid now =
        TxnResult.conflict
          { currentVersion := d.version.getD 0
            providedVersion := p
            lastModifiedBy := resolve (d.lastUpdatedBy.getD "")
            lastModifiedAt := d.updatedAt
            conflictingFields := ["overrides.country." ++ jsToUpper code] } := by
      simp [deleteCountryOverrideOp, hok, ht, hvcT p hp]
    exact ⟨h1, by rw [h1]; rfl⟩
  · intro hok ht lkv force hdisj
    simp only [deleteCountryOverrideOp, hok, ht, Bool.true_eq_false, if_false,
      hvcF lkv force hdisj, Bool.false_eq_true]
    exact ⟨_, rfl, by simp [incrementVersion]⟩
  · intro hok ht lkv force
    have h1 : deleteCountryOverrideOp resolve (some d) code lkv force uid now =
        TxnResult.validationError
          ("Country override for " ++ jsToUpper code ++ " does not exist") "countryCode" := by
      simp [deleteCountryOverrideOp, hok, ht]
    exact ⟨h1, by rw [h1]; rfl⟩

/-- C1 witness: on the sample document (version 5, truthy `US` override),
`US` is a valid code, the entry is truthy, and the delete-country-override
operation with `lastKnownVersion = 5` succeeds at version 6. -/
theorem C1_witness :
    countryCodeOk "US" = true ∧
    jsTruthyOpt (storedCountryEntry sampleDoc "US") = true ∧
    (some 5 = some (sampleDoc.version.getD 0) ∨ (some 5 : Option Nat) = none ∨
      false = true) ∧
    ∃ d2, deleteCountryOverrideOp (fun s => s) (some sampleDoc) "US" (some 5) false "u" 9
        = TxnResult.success d2 ∧ d2.version = some (sampleDoc.version.getD 0 + 1) :=
  ⟨rfl, rfl, Or.inl rfl,
    (C1_amended_conflict_protocol (fun s => s) sampleDoc sampleBody "US" (Value.vstr "B")
      "u" 9).2.2.2.2.2.1 rfl rfl (some 5) false (Or.inl rfl)⟩

/-- C3 counterexample: the claim says a conflict's `conflictingFields` lists
a country path only when the caller-supplied value differs from the stored
one, but a set-country-override conflict always carries exactly the
targeted path — here the caller supplies `US = "B"`, identical to the
stored override, and the conflict still lists `overrides.country.US`. -/
theorem C3_counterexample :
    setCountryOverrideOp (fun s => s) (some sampleDoc) "US" (Value.vstr "B") (some 3)
      false "u" 9 =
    TxnResult.conflict
      { currentVersion := 5
        providedVersion := 3
        lastModifiedBy := "alice"
        lastModifiedAt := some 2
        conflictingFields := ["overrides.country.US"] } := rfl

/-- C3 (amended): a full-update conflict's `conflictingFields` contains a
name exactly when the payload supplies that field with a value that is
JS-strict-`!==` the stored one — structured objects compare by reference,
so a payload object (always a distinct allocation from the stored snapshot)
counts as differing even when structurally equal, and the override paths
are compared only when both payload and stored document carry an
`overrides` object; a set- or delete-country-override conflict instead
always lists exactly the single targeted path, whatever values are
involved. -/
theorem C3_amended_conflicting_fields :
    (∀ (u : UpdateFields) (e : StoredParam) (f : String),
      f ∈ detectConflictingFields u e ↔
        ((f = "key" ∧ ∃ k, u.key = some k ∧ (!(k == e.key)) = true) ∨
         (f = "value" ∧ ∃ v, u.value = some v ∧ (!(jsStrictEqCross v e.value)) = true) ∨
         (f = "description" ∧ ∃ s, u.description = some s ∧
           jsStrictNeqOptStr s e.description = true) ∨
         (f = "isActive" ∧ ∃ b, u.isActive = some b ∧
           jsStrictNeqOptBool b e.isActive = true) ∨
         (∃ uo eo c uv, u.overrides = some uo ∧ e.overrides = some eo ∧
           cmLookup (uo.country.getD []) c = some uv ∧
           jsStrictNeqOptVal uv (cmLookup (eo.country.getD []) c) = true ∧
           f = "overrides.country." ++ c)))
    ∧ (∀ (resolve : String → String) (d : StoredParam) (lkv : Option Nat) (force : Bool)
        (body : ParameterBody) (uid : String) (now : Nat) (det : ConflictDetails),
        updateParameterOp resolve (some d) lkv force body uid now = TxnResult.conflict det →
        det.conflictingFields = detectConflictingFields (toUpdateFields body) d)
    ∧ (∀ (resolve : String → String) (d : StoredParam) (code : String) (v : Value)
        (lkv : Option Nat) (force : Bool) (uid : String) (now : Nat) (det : ConflictDetails),
        setCountryOverrideOp resolve (some d) code v lkv force uid now
          = TxnResult.conflict det →
        det.conflictingFields = ["overrides.country." ++ jsToUpper code])
    ∧ (∀ (resolve : String → String) (d : StoredParam) (code : String)
        (lkv : Option Nat) (force : Bool) (uid : String) (now : Nat) (det : ConflictDetails),
        deleteCountryOverrideOp resolve (some d) code lkv force uid now
          = TxnResult.conflict det →
        det.conflictingFields = ["overrides.country." ++ jsToUpper code]) := by
  refine ⟨?_, ?_, ?_, ?_⟩
  · intro u e f
    unfold detectConflictingFields
    simp only [List.mem_append, mem_fieldConflict]
    cases huo : u.overrides with
    | none => simp [huo, or_assoc]
    | some uo =>
      cases heo : e.overrides with
      | none => simp [heo, or_assoc]
      | some eo => simp [mem_overrideConflicts, or_assoc]
  · intro resolve d lkv force body uid now det h
    simp only [updateParameterOp] at h
    split at h
    · simp only [TxnResult.conflict.injEq] at h
      subst h
      rfl
    · exact absurd h (by simp)
  · intro resolve d code v lkv force uid now det h
    simp only [setCountryOverrideOp] at h
    split at h
    · exact absurd h (by simp)
    · split at h
      · simp only [TxnResult.conflict.injEq] at h
        subst h
        rfl
      · exact absurd h (by simp)
  · intro resolve d code lkv force uid now det h
    simp only [deleteCountryOverrideOp] at h
    split at h
    · exact absurd h (by simp)
    · split at h
      · exact absurd h (by simp)
      · split at h
        · simp only [TxnResult.conflict.injEq] at h
          subst h
          rfl
        · exact absurd h (by simp)

/-- C3 witness: a set-country-override conflict on `FR` (supplying a number
where a string is stored) lists exactly the single targeted path. -/
theorem C3_witness :
    ∃ det, setCountryOverrideOp (fun s => s) (some sampleDoc) "FR" (Value.vnum 1) (some 3)
        false "u" 9 = TxnResult.conflict det ∧
      det.conflictingFields = ["overrides.country." ++ jsToUpper "FR"] := by
  have h : setCountryOverrideOp (fun s => s) (some sampleDoc) "FR" (Value.vnum 1) (some 3)
      false "u" 9 = TxnResult.conflict
        { currentVersion := 5
          providedVersion := 3
          lastModifiedBy := "alice"
          lastModifiedAt := some 2
          conflictingFields := ["overrides.country.FR"] } := rfl
  exact ⟨_, h, C3_amended_conflicting_fields.2.2.1 (fun s => s) sampleDoc "FR" (Value.vnum 1)
    (some 3) false "u" 9 _ h⟩

/-- C6: the spec and the claim say the delete-country-override operation
raises `ValidationError` exactly when the stored country map has no entry
for the uppercased code, but the code's existence gate is the JS truthiness
test `if (!existingData.overrides?.country?.[code.toUpperCase()])`: on this
document the `US` entry exists with value `false`, yet the operation raises
`ValidationError` claiming the override "does not exist" (and commits
nothing) — deleting any override stored as `false`, `0`, `""` or `null` is
impossible. -/
theorem C6_falsy_override_evaluation :
    storedCountryEntry sampleDocFalseOverride "US" = some (Value.vbool false) ∧
    deleteCountryOverrideOp (fun s => s) (some sampleDocFalseOverride) "US" none false
        "u" 9 =
      TxnResult.validationError "Country override for US does not exist" "countryCode" :=
  ⟨rfl, rfl⟩

/-- C7 counterexample: the claim says every mutating operation's transaction
is bounded by the fixed 30-second budget, surfacing `TransactionTimeout`
beyond it; but `updateParameter` awaits `db.runTransaction` directly, so a
transaction taking 1000000 ms (well over 30000 ms) still commits normally
instead of timing out. -/
theorem C7_counterexample :
    (30000 ≤ 1000000 ∧
      updateParameterRun 1000000 (fun s => s) (some sampleDoc) none false sampleBody
        "u" 9 ≠ TxnResult.timeout) := by
  refine ⟨by norm_num, ?_⟩
  intro h
  have h2 : updateParameterRun 1000000 (fun s => s) (some sampleDoc) none false sampleBody
      "u" 9 = TxnResult.success
        { key := "k", value := Value.vstr "A", description := some ""
          overrides := some { country := some [("US", Value.vstr "B"), ("FR", Value.vstr "C")] }
          isActive := some true, version := some 6, createdAt := some 1, updatedAt := some 9
          lastUpdatedBy := some "u" } := rfl
  rw [h2] at h
  exact TxnResult.noConfusion h

/-- C7 (amended): only the delete-parameter operation runs its transaction
through `executeTransactionWithTimeout` with the 30000 ms budget — reaching
the budget surfaces the timeout failure, below it the delete commits; the
full-update, set-country-override and delete-country-override operations
run `db.runTransaction` directly, so their outcome is the plain transaction
result whatever wall-clock duration the transaction takes. -/
theorem C7_amended_timeout_coverage :
    (∀ (dur : Nat) (d : StoredParam), 30000 ≤ dur →
      deleteParameterRun dur (some d) = TxnResult.timeout)
    ∧ (∀ (dur : Nat) (d : StoredParam), dur < 30000 →
      deleteParameterRun dur (some d) = TxnResult.deleted)
    ∧ (∀ (dur : Nat) (resolve : String → String) (stored : Option StoredParam)
        (lkv : Option Nat) (force : Bool) (body : ParameterBody) (uid : String) (now : Nat),
        updateParameterRun dur resolve stored lkv force body uid now
          = updateParameterOp resolve stored lkv force body uid now)
    ∧ (∀ (dur : Nat) (resolve : String → String) (stored : Option StoredParam)
        (code : String) (v : Value) (lkv : Option Nat) (force : Bool) (uid : String)
        (now : Nat),
        setCountryOverrideRun dur resolve stored code v lkv force uid now
          = setCountryOverrideOp resolve stored code v lkv force uid now)
    ∧ (∀ (dur : Nat) (resolve : String → String) (stored : Option StoredParam)
        (code : String) (lkv : Option Nat) (force : Bool) (uid : String) (now : Nat),
        deleteCountryOverrideRun dur resolve stored code lkv force uid now
          = deleteCountryOverrideOp resolve stored code lkv force uid now) := by
  refine ⟨?_, ?_, ?_, ?_, ?_⟩
  · intro dur d h
    simp [deleteParameterRun, executeTransactionWithTimeout, h]
  · intro dur d h
    simp [deleteParameterRun, executeTransactionWithTimeout, Nat.not_le.mpr h]
  · intro dur resolve stored lkv force body uid now
    rfl
  · intro dur resolve stored code v lkv force uid now
    rfl
  · intro dur resolve stored code lkv force uid now
    rfl

/-- C7 witness: a delete-parameter transaction running exactly 30000 ms
times out. -/
theorem C7_witness :
    30000 ≤ 30000 ∧ deleteParameterRun 30000 (some sampleDoc) = TxnResult.timeout :=
  ⟨Nat.le_refl 30000, C7_amended_timeout_coverage.1 30000 sampleDoc (Nat.le_refl 30000)⟩

/-- C9 counterexample: the claim says input validation never rejects a value
of the union on its type, but the Joi `secureParameterValue` alternatives
cover only string, number and boolean — a structured object (here the empty
object) is rejected even with a string-security check that accepts
everything. -/
theorem C9_counterexample :
    secureParameterValueAccepts (fun _ => true) (Value.vobj []) = false := rfl

/-- C9 (amended): `secureParameterValue` accepts exactly the string, number
and boolean kinds — a string passing the security check with at most 10000
characters, a number within the safe-integer bounds, any boolean — and
rejects every structured object and null on its type, despite `object`
belonging to the declared `ParameterValue` union. -/
theorem C9_amended_value_validation :
    (∀ (check : String → Bool) (fields : List (String × Value)),
      secureParameterValueAccepts check (Value.vobj fields) = false)
    ∧ (∀ check : String → Bool, secureParameterValueAccepts check Value.vnull = false)
    ∧ (∀ (check : String → Bool) (b : Bool),
        secureParameterValueAccepts check (Value.vbool b) = true)
    ∧ (∀ (check : String → Bool) (n : Int),
        -jsMaxSafeInteger ≤ n → n ≤ jsMaxSafeInteger →
        secureParameterValueAccepts check (Value.vnum n) = true)
    ∧ (∀ (check : String → Bool) (s : String),
        check s = true → s.length ≤ 10000 →
        secureParameterValueAccepts check (Value.vstr s) = true) := by
  refine ⟨fun check fields => rfl, fun check => rfl, fun check b => rfl, ?_, ?_⟩
  · intro check n h1 h2
    simp [secureParameterValueAccepts, h1, h2]
  · intro check s h1 h2
    simp [secureParameterValueAccepts, h1, h2]

/-- C9 witness: the one-character string `"x"` passes the always-accepting
security check and the length bound, so it is accepted. -/
theorem C9_witness :
    (fun _ : String => true) "x" = true ∧ "x".length ≤ 10000 ∧
    secureParameterValueAccepts (fun _ => true) (Value.vstr "x") = true :=
  ⟨rfl, by decide,
    C9_amended_value_validation.2.2.2.2 (fun _ => true) "x" rfl (by decide)⟩
